import Mathlib

/- Verification development for the EE-bot moderation and
   verification engine.

   The Python sources are shallowly embedded: strings are lists of
   characters, each function the claims depend on is translated into
   an executable Lean definition, database state is passed
   explicitly, and fallible platform calls are driven by explicit
   oracle booleans.  Character case folding and the whitespace class
   are modelled on the ASCII range, which is the range the
   substitution table, the collapsed form and every claim operate
   on. -/

namespace EEBot

/-! ### utils/blacklist.py -/

/-- The fixed leet-speak substitution table (the module constant
mapping 0 to o, 1 to i, 3 to e, 4 to a, 5 to s, 7 to t, @ to a,
$ to s, ! to i, + to t); characters outside the table are left
unchanged. -/
def leetSub (c : Char) : Char :=
  if c = '0' then 'o'
  else if c = '1' then 'i'
  else if c = '3' then 'e'
  else if c = '4' then 'a'
  else if c = '5' then 's'
  else if c = '7' then 't'
  else if c = '@' then 'a'
  else if c = '$' then 's'
  else if c = '!' then 'i'
  else if c = '+' then 't'
  else c

/-- One character of the normalization pass of BlacklistFilter:
lower-casing followed by the substitution-table lookup. -/
def substCh (c : Char) : Char := leetSub c.toLower

/-- The character loop of BlacklistFilter (text.lower() followed by
the per-character table lookup). -/
def substChars (s : List Char) : List Char := s.map substCh

/-- The character class of lowercase letters a-z: the characters the
collapsed form keeps (everything matching the complement class is
removed by re.sub). -/
def isLowerAlpha (c : Char) : Bool := 'a' ≤ c && c ≤ 'z'

/-- The ASCII whitespace characters of the regex whitespace class. -/
def isPySpace (c : Char) : Bool :=
  c = ' ' || c = '\t' || c = '\n' || c = '\x0b' || c = '\x0c' || c = '\r'

/-- The collapsed form: the substituted text with every character
outside a-z removed (catches spaced-out evasion). -/
def collapsedForm (s : List Char) : List Char :=
  (substChars s).filter isLowerAlpha

/-- Replace every maximal whitespace run by a single space (the
re.sub call with the one-or-more whitespace pattern); the boolean
records whether the previous character belonged to a run. -/
def collapseWS : Bool → List Char → List Char
  | _, [] => []
  | inRun, c :: rest =>
    if isPySpace c then
      if inRun then collapseWS true rest
      else ' ' :: collapseWS true rest
    else c :: collapseWS false rest

/-- The spaced form: the substituted text with whitespace runs
collapsed (preserves phrase boundaries). -/
def spacedForm (s : List Char) : List Char := collapseWS false (substChars s)

/-- The static method on BlacklistFilter that normalizes text: it
returns the collapsed form and the spaced form joined by one space,
exactly as the formatted return string does. -/
def normalize (s : List Char) : List Char :=
  collapsedForm s ++ ' ' :: spacedForm s

/-- Python substring containment (the expression testing whether word
occurs in normalized): true iff w occurs contiguously in s. -/
def containsSub (w : List Char) : List Char → Bool
  | [] => w.isEmpty
  | c :: rest => w.isPrefixOf (c :: rest) || containsSub w rest

/-- Stable insertion into a list sorted by descending length, the
element placed before the first entry that is not longer.  Together
with sortByLenDesc this models the stable Python sorted call with
key len and reverse order. -/
def insertByLenDesc (w : List Char) : List (List Char) → List (List Char)
  | [] => [w]
  | v :: vs =>
    if v.length ≤ w.length then w :: v :: vs
    else v :: insertByLenDesc w vs

/-- Stable sort by descending length (longest terms first), the term
ordering used when the combined pattern is compiled. -/
def sortByLenDesc : List (List Char) → List (List Char)
  | [] => []
  | w :: ws => insertByLenDesc w (sortByLenDesc ws)

/-- One position of the compiled alternation: some alternative is a
literal prefix of the remaining text.  Every alternative is the
re.escape of a term, hence a plain literal. -/
def altHere (alts : List (List Char)) (s : List Char) : Bool :=
  alts.any (fun w => w.isPrefixOf s)

/-- The search method of the compiled pattern for an alternation of
literals: scan left to right, trying the alternatives at every
position. -/
def altSearch (alts : List (List Char)) : List Char → Bool
  | [] => altHere alts []
  | c :: rest => altHere alts (c :: rest) || altSearch alts rest

/-- The pattern compilation step of BlacklistFilter: the pattern is
absent when the term set is empty, otherwise the escaped terms sorted
longest first and joined into one alternation. -/
def compilePattern (words : List (List Char)) : Option (List (List Char)) :=
  if words.isEmpty then none else some (sortByLenDesc words)

/-- The check method of BlacklistFilter: an empty set fails open;
otherwise normalize the text, run the combined pattern as a fast
first pass and, on a hit, collect every term contained in the
normalized text.  The mutable set of terms is modelled as the list
of its elements in iteration order. -/
def check (words : List (List Char)) (text : List Char) :
    Bool × List (List Char) :=
  if words.isEmpty then (false, [])
  else
    let normalized := normalize text
    let hit :=
      match compilePattern words with
      | none => false
      | some alts => altSearch alts normalized
    let found :=
      if hit then words.filter (fun w => containsSub w normalized) else []
    (!found.isEmpty, found)

/-- The classification the specification describes for the
containment pass alone: one per-term containment scan over the
normalized text, flagged iff some term is contained.  Used as the
reference point of the refinement claim C10. -/
def checkSpec (words : List (List Char)) (text : List Char) :
    Bool × List (List Char) :=
  let normalized := normalize text
  let found := words.filter (fun w => containsSub w normalized)
  (!found.isEmpty, found)

/-- g is one of the ten glyphs of the substitution table (exactly the
characters the table moves). -/
def isLeetGlyph (g : Char) : Bool := !(leetSub g == g)

/-- x is obtained from the term t by replacing letters with their
leet-speak glyph equivalents: positionwise, each character of x is
either the character of t unchanged, or a glyph that the table maps
to it. -/
def leetVariant (x t : List Char) : Bool :=
  x.length == t.length &&
    (x.zip t).all (fun p => p.1 == p.2 || (isLeetGlyph p.1 && leetSub p.1 == p.2))

/-! ### captcha_server.py - the signed, time-limited token -/

/-- Modelled from the spec: the signature the external itsdangerous
serializer computes over the payload and the issue timestamp with the
server-held secret and the scoping salt (section 4.3 of the spec: a
signature over participant id and issue time using a server-held
secret, plus a scoping tag).  The concrete HMAC lives outside the
repository; validation only recomputes this value and compares it,
which is the only property the claims use, so any concrete mixing
function is a faithful stand-in. -/
def sigOf (secret salt payload ts : Nat) : Nat :=
  ((secret * 1000003 + salt) * 1000003 + payload) * 1000003 + ts

/-- The scoping salt of the verification tokens (the captcha-verify
tag), modelled as a fixed numeric tag distinct from any other salt
the system might use. -/
def saltCaptchaVerify : Nat := 1

/-- TOKEN_MAX_AGE: 1800 seconds, thirty minutes. -/
def TOKEN_MAX_AGE : Nat := 1800

/-- A token as the serializer lays it out: the payload (the user id),
the issue timestamp, and the signature over both. -/
structure Token where
  uid : Nat
  ts : Nat
  sig : Nat
deriving DecidableEq, Repr

/-- create_verification_token: the serializer dumps the user id with
the captcha-verify salt, embedding the issue time and the
signature.  now is the issue time in seconds. -/
def create_verification_token (secret uid now : Nat) : Token :=
  { uid := uid, ts := now, sig := sigOf secret saltCaptchaVerify uid now }

/-- decode_verification_token: the serializer loads the token with
max_age TOKEN_MAX_AGE.  A wrong signature (BadSignature) and an age
strictly greater than max_age (SignatureExpired) are caught and both
collapse to the single invalid outcome none; now is the validation
time in seconds, so the age is now - ts. -/
def decode_verification_token (secret now : Nat) (t : Token) : Option Nat :=
  if t.sig = sigOf secret saltCaptchaVerify t.uid t.ts ∧ now - t.ts ≤ TOKEN_MAX_AGE
  then some t.uid else none

/-! ### models.py and database.py - the relational state

    The rows keep the columns the claims depend on; free-text and
    timestamp columns are omitted.  Every write block below mirrors
    one get_session scope of the source: the scope commits all of its
    statements together and rolls the whole scope back on failure. -/

/-- A users table row. -/
structure UserRow where
  discord_id : Nat
  is_verified : Bool
deriving DecidableEq, Repr

/-- A mod_actions table row. -/
structure ModActionRow where
  target_user_id : Nat
  moderator_id : Nat
  action_type : String
  duration_minutes : Option Nat
deriving DecidableEq, Repr

/-- A warnings table row. -/
structure WarningRow where
  user_id : Nat
  issued_by : Nat
deriving DecidableEq, Repr

/-- A user_events table row: the append-only audit log. -/
structure UserEventRow where
  user_id : Nat
  event_type : String
deriving DecidableEq, Repr

/-- The durable state: the four tables the claims touch. -/
structure DB where
  users : List UserRow
  mod_actions : List ModActionRow
  warnings : List WarningRow
  user_events : List UserEventRow
deriving DecidableEq, Repr

/-- The empty database. -/
def dbEmpty : DB := ⟨[], [], [], []⟩

/-- The static helper on the moderation cog that ensures a user row
exists: select by discord id and insert a fresh unverified row if
absent - the lazy creation that must precede every dependent
write. -/
def ensure_user (db : DB) (uid : Nat) : DB :=
  if db.users.any (fun u => u.discord_id == uid) then db
  else { db with users := db.users ++ [⟨uid, false⟩] }

/-- The referential-integrity invariant of the schema (the foreign
keys declared in models.py): every dependent row references an
existing users row. -/
def refIntegrity (db : DB) : Bool :=
  db.mod_actions.all (fun a => db.users.any (fun u => u.discord_id == a.target_user_id))
  && db.warnings.all (fun w => db.users.any (fun u => u.discord_id == w.user_id))
  && db.user_events.all (fun e => db.users.any (fun u => u.discord_id == e.user_id))

/-! ### The platform slice and the moderation commands -/

/-- The slice of the platform member object the engine reads: the id,
the bot flag, the ordinal position of the top role (the authority
rank) and the manage-messages permission the automod buttons
check. -/
structure Member where
  id : Nat
  isBot : Bool
  topRole : Nat
  manageMessages : Bool
deriving DecidableEq, Repr

/-- Platform-side effects the engine issues.  Interaction responses
(the embeds reported back to the requester) are represented by the
result value instead. -/
inductive Effect where
  | dm (uid : Nat)
  | kickUser (uid : Nat)
  | banUser (uid : Nat)
  | timeoutUser (uid : Nat) (minutes : Nat)
  | unbanUser (uid : Nat)
  | addRole (uid : Nat)
deriving DecidableEq, Repr

/-- The outcome reported to the requester of a command or button. -/
inductive CmdResult where
  | rejected (msg : String)
  | done
deriving DecidableEq, Repr

/-- True iff the outcome is a rejection. -/
def CmdResult.isRejection : CmdResult → Bool
  | .rejected _ => true
  | .done => false

/-- The kick slash command body of the moderation cog (run after the
library-level kick-members permission gate): bot check, the
role-hierarchy check rejecting a target whose top role is greater
than or equal to the actor top role, best-effort DM, the platform
kick, then the two logging scopes (action plus target-facet audit in
the first, staff-activity audit in the second).  dmOk and kickOk are
the platform oracle: whether the direct message and the kick call
succeed (a Forbidden DM is swallowed). -/
def kickCmd (db : DB) (actor target : Member) (dmOk kickOk : Bool) :
    DB × List Effect × CmdResult :=
  if target.isBot then (db, [], .rejected ("Cannot kick bots via this command."))
  else if actor.topRole ≤ target.topRole then
    (db, [], .rejected ("You cannot kick a member with equal or higher role."))
  else
    let dmEffs := if dmOk then [Effect.dm target.id] else []
    if !kickOk then
      (db, dmEffs, .rejected ("I do not have permission to kick this user."))
    else
      let db1 := ensure_user db target.id
      let db2 := { db1 with
        mod_actions := db1.mod_actions ++ [⟨target.id, actor.id, "kick", none⟩],
        user_events := db1.user_events ++ [⟨target.id, "kicked"⟩] }
      let db3 := ensure_user db2 actor.id
      let db4 := { db3 with
        user_events := db3.user_events ++ [⟨actor.id, "mod_action_performed"⟩] }
      (db4, dmEffs ++ [Effect.kickUser target.id], .done)

/-- The ban slash command body, with the same shape as the kick
command: bot check, hierarchy check, best-effort DM, platform ban,
then the two logging scopes. -/
def banCmd (db : DB) (actor target : Member) (dmOk banOk : Bool) :
    DB × List Effect × CmdResult :=
  if target.isBot then (db, [], .rejected ("Cannot ban bots via this command."))
  else if actor.topRole ≤ target.topRole then
    (db, [], .rejected ("You cannot ban a member with equal or higher role."))
  else
    let dmEffs := if dmOk then [Effect.dm target.id] else []
    if !banOk then
      (db, dmEffs, .rejected ("I do not have permission to ban this user."))
    else
      let db1 := ensure_user db target.id
      let db2 := { db1 with
        mod_actions := db1.mod_actions ++ [⟨target.id, actor.id, "ban", none⟩],
        user_events := db1.user_events ++ [⟨target.id, "banned"⟩] }
      let db3 := ensure_user db2 actor.id
      let db4 := { db3 with
        user_events := db3.user_events ++ [⟨actor.id, "mod_action_performed"⟩] }
      (db4, dmEffs ++ [Effect.banUser target.id], .done)

/-- The timeout slash command body: bot check, hierarchy check, the
platform timeout call, the action-logging scope, the best-effort DM,
then the staff-activity scope.  minutes is already range-checked by
the command declaration (1 to 40320). -/
def timeoutCmd (db : DB) (actor target : Member) (minutes : Nat)
    (dmOk timeoutOk : Bool) : DB × List Effect × CmdResult :=
  if target.isBot then (db, [], .rejected ("Cannot timeout bots."))
  else if actor.topRole ≤ target.topRole then
    (db, [], .rejected ("You cannot timeout a member with equal or higher role."))
  else if !timeoutOk then
    (db, [], .rejected ("I do not have permission to timeout this user."))
  else
    let db1 := ensure_user db target.id
    let db2 := { db1 with
      mod_actions := db1.mod_actions ++ [⟨target.id, actor.id, "timeout", some minutes⟩],
      user_events := db1.user_events ++ [⟨target.id, "timed_out"⟩] }
    let dmEffs := if dmOk then [Effect.dm target.id] else []
    let db3 := ensure_user db2 actor.id
    let db4 := { db3 with
      user_events := db3.user_events ++ [⟨actor.id, "mod_action_performed"⟩] }
    (db4, Effect.timeoutUser target.id minutes :: dmEffs, .done)

/-- How a warn command run ends: an escaped storage exception reaches
the cog error handler, a bot target is turned away, or the command
completes. -/
inductive WarnOutcome where
  | errored
  | rejectedBot
  | completed
deriving DecidableEq, Repr

/-- The warn slash command body: one session writes the warning row,
the action row and the target-facet audit event and commits them
together; after the best-effort DM a second, separate session writes
the staff-activity audit event.  txn1Ok and txn2Ok are the storage
oracle: a false value models a failure inside that session, which
rolls that whole session back and re-raises (get_session commits on
success, rolls back and re-raises on failure). -/
def warnCmd (db : DB) (actor target : Member) (txn1Ok txn2Ok dmOk : Bool) :
    DB × List Effect × WarnOutcome :=
  if target.isBot then (db, [], .rejectedBot)
  else if !txn1Ok then (db, [], .errored)
  else
    let db1 := ensure_user db target.id
    let db2 := { db1 with
      warnings := db1.warnings ++ [⟨target.id, actor.id⟩],
      mod_actions := db1.mod_actions ++ [⟨target.id, actor.id, "warn", none⟩],
      user_events := db1.user_events ++ [⟨target.id, "warned"⟩] }
    let dmEffs := if dmOk then [Effect.dm target.id] else []
    if !txn2Ok then (db2, dmEffs, .errored)
    else
      let db3 := ensure_user db2 actor.id
      let db4 := { db3 with
        user_events := db3.user_events ++ [⟨actor.id, "mod_action_performed"⟩] }
      (db4, dmEffs, .completed)

/-- The unban slash command body: fetch the user and call the guild
unban (a NotFound answer means the user is not banned, Forbidden
means no permission), then one session writing only the action row -
with no ensure-user call for the target - and a second session
ensuring the actor row and writing the staff-activity event. -/
def unbanCmd (db : DB) (actor : Member) (uid : Nat) (fetchOk unbanOk : Bool) :
    DB × List Effect × CmdResult :=
  if !fetchOk then (db, [], .rejected ("This user is not banned."))
  else if !unbanOk then
    (db, [], .rejected ("I do not have permission to unban this user."))
  else
    let db1 := { db with mod_actions := db.mod_actions ++ [⟨uid, actor.id, "unban", none⟩] }
    let db2 := ensure_user db1 actor.id
    let db3 := { db2 with
      user_events := db2.user_events ++ [⟨actor.id, "mod_action_performed"⟩] }
    (db3, [Effect.unbanUser uid], .done)

/-- The member-remove listener of the verification cog: it writes the
leave audit event with no existence check for the user (the cog has
no ensure-user call on this path). -/
def on_member_remove (db : DB) (member : Member) : DB :=
  if member.isBot then db
  else { db with user_events := db.user_events ++ [⟨member.id, "leave"⟩] }

/-! ### The automod confirmation surface (ModActionView) -/

/-- The kick button handler of the automod action view: a permission
check on manage-messages only, the target fetch, a best-effort DM,
the platform kick, one logging session (no ensure-user call), then
the step that disables every button on the surface.  No
role-hierarchy comparison appears anywhere on this path.  The
incoming boolean is the stored disabled state of the surface and the
returned boolean is the state written back; the handler body never
reads it.  targetFound, dmOk and kickOk are the platform oracle. -/
def kick_button (db : DB) (surfaceDisabled : Bool) (actor target : Member)
    (targetFound dmOk kickOk : Bool) : DB × List Effect × CmdResult × Bool :=
  if !actor.manageMessages then
    (db, [], .rejected ("You do not have permission to do this."), surfaceDisabled)
  else if !targetFound then
    (db, [], .rejected ("User not found in server."), surfaceDisabled)
  else
    let dmEffs := if dmOk then [Effect.dm target.id] else []
    if !kickOk then
      (db, dmEffs, .rejected ("I do not have permission to kick this user."), surfaceDisabled)
    else
      let db1 := { db with
        mod_actions := db.mod_actions ++ [⟨target.id, actor.id, "kick", none⟩],
        user_events := db.user_events ++ [⟨target.id, "kicked"⟩] }
      (db1, dmEffs ++ [Effect.kickUser target.id], .done, true)

/-- The phases of one click handler of the action view: not yet
dispatched, dispatched and running, moderation action done, surface
edit done. -/
inductive ClickPhase where
  | pending
  | running
  | executed
  | finished
deriving DecidableEq, Repr

/-- The surface together with its in-flight click handlers: the
disabled flag stored in the message, the count of moderation actions
the surface has executed, and one phase per potential click. -/
structure SurfaceState where
  disabled : Bool
  executions : Nat
  tasks : List ClickPhase
deriving DecidableEq, Repr

/-- The atomic scheduler actions over a surface: the platform
delivers click i only while the stored surface is not disabled; the
body of handler i then performs the moderation action (the platform
effect and the database write) without ever reading the disabled
flag - the source has no guard - and finally the handler disables
all buttons and edits the message. -/
inductive ClickAct where
  | click (i : Nat)
  | exec (i : Nat)
  | disable (i : Nat)
deriving DecidableEq, Repr

/-- One atomic step of the confirmation surface.  An action whose
enabling condition does not hold leaves the state unchanged. -/
def stepClick (s : SurfaceState) : ClickAct → SurfaceState
  | .click i =>
    if s.disabled = false ∧ s.tasks.get? i = some .pending then
      { s with tasks := s.tasks.set i .running }
    else s
  | .exec i =>
    if s.tasks.get? i = some .running then
      { s with executions := s.executions + 1, tasks := s.tasks.set i .executed }
    else s
  | .disable i =>
    if s.tasks.get? i = some .executed then
      { s with disabled := true, tasks := s.tasks.set i .finished }
    else s

/-- Run a schedule of atomic actions over the surface. -/
def runClicks (s : SurfaceState) (acts : List ClickAct) : SurfaceState :=
  acts.foldl stepClick s

/-! ### captcha_server.py - the verification submit flow -/

/-- The page the submit handler renders. -/
inductive SubmitOutcome where
  | successPage
  | errorPage (reason : String)
deriving DecidableEq, Repr

/-- The outcome of the direct message at the end of the completion
step: delivered, refused with Forbidden - the only error the source
catches there - or failed with any other error, which escapes. -/
inductive DmOutcome where
  | delivered
  | forbidden
  | failed
deriving DecidableEq, Repr

/-- CaptchaServer._complete_verification: one session commits the
UPDATE setting the verified flag on the matching users row - it
affects only rows that already exist and creates none - together
with the appended verified audit event; a storage failure there
rolls the session back and escapes with the database unchanged.
After the commit come the follow-ups: the guild, member and role
lookups, whose failure is only logged before an early return; the
add-roles call, which is unguarded, so a platform error there
escapes with the verification already committed; and the DM, where
only the Forbidden error is caught.  dbOk, lookupsOk and addRolesOk
are the storage and platform oracle; the returned boolean records
whether an exception escaped to the caller. -/
def complete_verification (db : DB) (uid : Nat)
    (dbOk lookupsOk addRolesOk : Bool) (dm : DmOutcome) :
    DB × List Effect × Bool :=
  if !dbOk then (db, [], true)
  else
    let db1 := { db with
      users := db.users.map (fun u =>
        if u.discord_id == uid then { u with is_verified := true } else u),
      user_events := db.user_events ++ [⟨uid, "verified"⟩] }
    if !lookupsOk then (db1, [], false)
    else if !addRolesOk then (db1, [], true)
    else
      match dm with
      | .delivered => (db1, [Effect.addRole uid, Effect.dm uid], false)
      | .forbidden => (db1, [Effect.addRole uid], false)
      | .failed => (db1, [Effect.addRole uid], true)

/-- Whether the completion step run with a committed session raises
on its post-commit follow-ups: the unguarded role grant failing, or
the DM failing with an error other than Forbidden; failed lookups
only log and return early, so they never raise. -/
def followupRaises (lookupsOk addRolesOk : Bool) (dm : DmOutcome) : Bool :=
  lookupsOk && (!addRolesOk || dm == DmOutcome.failed)

/-- The POST handler of the verification page: decode the token,
require a captcha response, validate it with the external verifier
(a network fault and a non-success answer both come back false -
fail closed), then run the completion step inside a try block whose
except renders the error page.  When the completion step raises
after its session committed, the error page is rendered although
the verified flag is already durably true. -/
def handle_captcha_submit (db : DB) (secret now : Nat) (t : Token)
    (captchaResponse : Option String)
    (hcaptchaOk dbOk lookupsOk addRolesOk : Bool) (dm : DmOutcome) :
    DB × List Effect × SubmitOutcome :=
  match decode_verification_token secret now t with
  | none => (db, [], .errorPage ("This verification link has expired or is invalid."))
  | some uid =>
    match captchaResponse with
    | none => (db, [], .errorPage ("Please complete the captcha before submitting."))
    | some _ =>
      if !hcaptchaOk then
        (db, [], .errorPage ("Captcha verification failed. Please try again."))
      else
        let r := complete_verification db uid dbOk lookupsOk addRolesOk dm
        (r.1, r.2.1,
          if r.2.2 then .errorPage ("An error occurred. Please try again later.")
          else .successPage)

/-- The verified flag of the users row for uid, when that row
exists. -/
def getVerified (db : DB) (uid : Nat) : Option Bool :=
  (db.users.find? (fun u => u.discord_id == uid)).map (fun u => u.is_verified)

/-! ## Character-level lemmas for the normalizer -/

/-- Building a character from a code point in the lowercase-letter
range keeps the code point. -/
theorem charOfNat_toNat (n : Nat) (h1 : 97 ≤ n) (h2 : n ≤ 122) :
    (Char.ofNat n).toNat = n := by
  have hv : n.isValidChar := Or.inl (by omega)
  simp [Char.ofNat, hv, Char.toNat, Char.ofNatAux, UInt32.toNat, BitVec.toNat_ofNatLt]

/-- Lowering an uppercase letter adds 32 to its code point. -/
theorem toLower_of_upper (c : Char) (h : 65 ≤ c.toNat ∧ c.toNat ≤ 90) :
    (Char.toLower c).toNat = c.toNat + 32 := by
  unfold Char.toLower
  rw [if_pos ⟨h.1, h.2⟩]
  exact charOfNat_toNat _ (by omega) (by omega)

/-- Lowering is the identity outside the uppercase range. -/
theorem toLower_outside_upper (c : Char) (h : ¬(65 ≤ c.toNat ∧ c.toNat ≤ 90)) :
    Char.toLower c = c := by
  unfold Char.toLower
  rw [if_neg h]

/-- The substitution table never moves a lowercase letter. -/
theorem leetSub_of_lower (c : Char) (h1 : 97 ≤ c.toNat) (h2 : c.toNat ≤ 122) :
    leetSub c = c := by
  unfold leetSub
  split_ifs <;> first
    | rfl
    | (subst_vars; exact absurd h1 (by decide))

/-- The substitution either fixes a character or yields one of its
six letter outputs. -/
theorem leetSub_cases (c : Char) :
    leetSub c = c ∨ leetSub c ∈ ['o', 'i', 'e', 'a', 's', 't'] := by
  unfold leetSub
  split_ifs <;> simp

/-- Every glyph of the table is fixed by lower-casing. -/
theorem toLower_of_glyph (g : Char) (h : isLeetGlyph g = true) :
    Char.toLower g = g := by
  unfold isLeetGlyph leetSub at h
  split_ifs at h <;> first
    | (subst_vars; decide)
    | (simp at h)

/-- Membership form of isLowerAlpha. -/
theorem lowerAlpha_toNat (c : Char) (h : isLowerAlpha c = true) :
    97 ≤ c.toNat ∧ c.toNat ≤ 122 := by
  unfold isLowerAlpha at h
  rw [Bool.and_eq_true, decide_eq_true_eq, decide_eq_true_eq] at h
  exact ⟨Char.le_def.mp h.1, Char.le_def.mp h.2⟩

/-- The per-character normalization fixes lowercase letters. -/
theorem substCh_of_lowerAlpha (c : Char) (h : isLowerAlpha c = true) :
    substCh c = c := by
  have h1 := lowerAlpha_toNat c h
  unfold substCh
  rw [toLower_outside_upper c (by omega), leetSub_of_lower c h1.1 h1.2]

/-- The per-character normalization is idempotent. -/
theorem substCh_idem (c : Char) : substCh (substCh c) = substCh c := by
  by_cases hup : 65 ≤ c.toNat ∧ c.toNat ≤ 90
  · have hl := toLower_of_upper c hup
    have h97 : 97 ≤ (Char.toLower c).toNat := by omega
    have h122 : (Char.toLower c).toNat ≤ 122 := by omega
    have hfix : leetSub (Char.toLower c) = Char.toLower c :=
      leetSub_of_lower _ h97 h122
    unfold substCh
    rw [hfix, toLower_outside_upper _ (by omega), hfix]
  · have hlo : Char.toLower c = c := toLower_outside_upper c hup
    unfold substCh
    rw [hlo]
    rcases leetSub_cases c with h | h
    · rw [h, hlo, h]
    · simp only [List.mem_cons, List.not_mem_nil, or_false] at h
      rcases h with h | h | h | h | h | h <;> rw [h] <;> decide

/-- A whitespace character is never a lowercase letter. -/
theorem not_lowerAlpha_of_space (c : Char) (h : isPySpace c = true) :
    isLowerAlpha c = false := by
  unfold isPySpace at h
  simp only [Bool.or_eq_true, decide_eq_true_eq] at h
  rcases h with ((((h | h) | h) | h) | h) | h <;> subst h <;> decide

/-! ## List-level lemmas for the normalizer and the matcher -/

/-- Mapping a pointwise-fixed function over a list is the
identity. -/
theorem map_fixed {α : Type} (f : α → α) (l : List α)
    (h : ∀ a ∈ l, f a = a) : l.map f = l := by
  induction l with
  | nil => rfl
  | cons a t ih =>
    rw [List.map_cons, h a (List.mem_cons_self a t),
      ih (fun b hb => h b (List.mem_cons_of_mem a hb))]

/-- The collapsed form distributes over append. -/
theorem collapsedForm_append (a b : List Char) :
    collapsedForm (a ++ b) = collapsedForm a ++ collapsedForm b := by
  unfold collapsedForm substChars
  rw [List.map_append, List.filter_append]

/-- Every character of a collapsed form is a lowercase letter. -/
theorem lowerAlpha_of_mem_collapsedForm (s : List Char) (c : Char)
    (h : c ∈ collapsedForm s) : isLowerAlpha c = true :=
  (List.mem_filter.mp h).2

/-- The collapsed-form extraction is idempotent. -/
theorem collapsedForm_idem (s : List Char) :
    collapsedForm (collapsedForm s) = collapsedForm s := by
  have hfix : substChars (collapsedForm s) = collapsedForm s :=
    map_fixed substCh _ (fun c hc =>
      substCh_of_lowerAlpha c (lowerAlpha_of_mem_collapsedForm s c hc))
  show (substChars (collapsedForm s)).filter isLowerAlpha = collapsedForm s
  rw [hfix]
  exact List.filter_eq_self.mpr (fun c hc => lowerAlpha_of_mem_collapsedForm s c hc)

/-- Characters of the whitespace-collapsed list come from the list or
are the inserted space. -/
theorem mem_collapseWS (l : List Char) (b : Bool) (c : Char)
    (h : c ∈ collapseWS b l) : c = ' ' ∨ c ∈ l := by
  induction l generalizing b with
  | nil => cases h
  | cons a t ih =>
    unfold collapseWS at h
    split_ifs at h with h1 h2
    · rcases ih true h with h3 | h3
      · exact Or.inl h3
      · exact Or.inr (List.mem_cons_of_mem a h3)
    · rcases List.mem_cons.mp h with h3 | h3
      · exact Or.inl h3
      · rcases ih true h3 with h4 | h4
        · exact Or.inl h4
        · exact Or.inr (List.mem_cons_of_mem a h4)
    · rcases List.mem_cons.mp h with h3 | h3
      · exact Or.inr (h3 ▸ List.mem_cons_self a t)
      · rcases ih false h3 with h4 | h4
        · exact Or.inl h4
        · exact Or.inr (List.mem_cons_of_mem a h4)

/-- Collapsing whitespace runs does not change the letters kept by
the collapsed form. -/
theorem filter_collapseWS (l : List Char) (b : Bool) :
    (collapseWS b l).filter isLowerAlpha = l.filter isLowerAlpha := by
  induction l generalizing b with
  | nil => rfl
  | cons a t ih =>
    unfold collapseWS
    split_ifs with h1 h2
    · rw [ih true, List.filter_cons_of_neg]
      simp [not_lowerAlpha_of_space a h1]
    · rw [List.filter_cons_of_neg, ih true, List.filter_cons_of_neg]
      · simp [not_lowerAlpha_of_space a h1]
      · decide
    · cases hla : isLowerAlpha a with
      | true =>
        rw [List.filter_cons_of_pos, List.filter_cons_of_pos, ih false] <;>
          exact hla
      | false =>
        rw [List.filter_cons_of_neg, List.filter_cons_of_neg, ih false] <;>
          simp [hla]

/-- The collapsed form of the spaced form recovers the collapsed
form of the original text. -/
theorem collapsedForm_spacedForm (s : List Char) :
    collapsedForm (spacedForm s) = collapsedForm s := by
  have hfix : substChars (spacedForm s) = spacedForm s := by
    refine map_fixed substCh _ (fun c hc => ?_)
    rcases mem_collapseWS (substChars s) false c hc with h | h
    · rw [h]; decide
    · rcases List.mem_map.mp h with ⟨c0, _, rfl⟩
      exact substCh_idem c0
  show (substChars (spacedForm s)).filter isLowerAlpha = collapsedForm s
  rw [hfix]
  show (collapseWS false (substChars s)).filter isLowerAlpha = collapsedForm s
  rw [filter_collapseWS]
  rfl

/-- A leading space is dropped by the collapsed form. -/
theorem collapsedForm_cons_space (l : List Char) :
    collapsedForm (' ' :: l) = collapsedForm l := by
  show (substCh ' ' :: substChars l).filter isLowerAlpha = collapsedForm l
  rw [show substCh ' ' = ' ' from by decide, List.filter_cons_of_neg]
  · rfl
  · decide

/-- An empty pattern is a prefix of the empty text exactly when it is
empty. -/
theorem prefixOf_nil (w : List Char) : w.isPrefixOf ([] : List Char) = w.isEmpty := by
  cases w <;> rfl

/-- Any over a pointwise-equal predicate. -/
theorem any_ext {α : Type} (l : List α) (f g : α → Bool)
    (h : ∀ a, f a = g a) : l.any f = l.any g := by
  induction l with
  | nil => rfl
  | cons a t ih => rw [List.any_cons, List.any_cons, h a, ih]

/-- Any distributes over a pointwise disjunction. -/
theorem any_or_split {α : Type} (l : List α) (f g : α → Bool) :
    (l.any fun a => f a || g a) = (l.any f || l.any g) := by
  induction l with
  | nil => rfl
  | cons a t ih =>
    rw [List.any_cons, List.any_cons, List.any_cons, ih]
    cases f a <;> cases g a <;> cases t.any f <;> cases t.any g <;> rfl

/-- Any is invariant under permutation. -/
theorem any_eq_of_perm {α : Type} {l1 l2 : List α} (h : l1.Perm l2)
    (f : α → Bool) : l1.any f = l2.any f := by
  cases hb : l2.any f with
  | false =>
    rw [List.any_eq_false] at hb ⊢
    exact fun x hx => hb x (h.mem_iff.mp hx)
  | true =>
    rw [List.any_eq_true] at hb ⊢
    rcases hb with ⟨x, hx, hfx⟩
    exact ⟨x, h.mem_iff.mpr hx, hfx⟩

/-- The search of the literal alternation succeeds exactly when some
alternative is contained in the text. -/
theorem altSearch_eq_any (alts : List (List Char)) (s : List Char) :
    altSearch alts s = alts.any (fun w => containsSub w s) := by
  induction s with
  | nil =>
    show altHere alts [] = _
    unfold altHere
    exact any_ext alts _ _ (fun w => prefixOf_nil w)
  | cons c rest ih =>
    show (altHere alts (c :: rest) || altSearch alts rest)
        = alts.any fun w => containsSub w (c :: rest)
    unfold altHere
    rw [ih, ← any_or_split]
    rfl

/-- Containment follows from being a prefix. -/
theorem containsSub_of_prefixOf (w s : List Char)
    (h : w.isPrefixOf s = true) : containsSub w s = true := by
  cases s with
  | nil => rw [show containsSub w [] = w.isEmpty from rfl, ← prefixOf_nil, h]
  | cons c rest =>
    show (w.isPrefixOf (c :: rest) || containsSub w rest) = true
    rw [h, Bool.true_or]

/-- A pattern is contained in any text that extends it to the
right. -/
theorem containsSub_self_append (w r : List Char) :
    containsSub w (w ++ r) = true :=
  containsSub_of_prefixOf w (w ++ r)
    (List.isPrefixOf_iff_prefix.mpr (List.prefix_append w r))

/-- Stable insertion is a permutation of pushing in front. -/
theorem insertByLenDesc_perm (w : List Char) (l : List (List Char)) :
    (insertByLenDesc w l).Perm (w :: l) := by
  induction l with
  | nil => exact List.Perm.refl _
  | cons v vs ih =>
    unfold insertByLenDesc
    split_ifs
    · exact List.Perm.refl _
    · exact (ih.cons v).trans (List.Perm.swap w v vs)

/-- The longest-first ordering is a permutation of the term list. -/
theorem sortByLenDesc_perm (ws : List (List Char)) :
    (sortByLenDesc ws).Perm ws := by
  induction ws with
  | nil => exact List.Perm.refl _
  | cons w t ih => exact (insertByLenDesc_perm w (sortByLenDesc t)).trans (ih.cons w)

/-! ## Lemmas about the leet-variant relation -/

/-- Under the variant relation, with an all-letter term, the
character normalization recovers the term. -/
theorem substChars_of_variant (x t : List Char)
    (h : leetVariant x t = true) (hlet : t.all isLowerAlpha = true) :
    substChars x = t := by
  unfold leetVariant at h
  rw [Bool.and_eq_true, beq_iff_eq] at h
  induction x generalizing t with
  | nil =>
    cases t with
    | nil => rfl
    | cons b bs => exact absurd h.1 (by simp)
  | cons a as ih =>
    cases t with
    | nil => exact absurd h.1 (by simp)
    | cons b bs =>
      rw [List.all_cons, Bool.and_eq_true] at hlet
      rcases h with ⟨hlen, hall⟩
      rw [List.zip_cons_cons, List.all_cons, Bool.and_eq_true] at hall
      dsimp only at hall
      have hhead : substCh a = b := by
        have h1 := hall.1
        rw [Bool.or_eq_true] at h1
        rcases h1 with hh | hh
        · rw [beq_iff_eq] at hh
          rw [hh]
          exact substCh_of_lowerAlpha b hlet.1
        · rw [Bool.and_eq_true, beq_iff_eq] at hh
          show leetSub a.toLower = b
          rw [toLower_of_glyph a hh.1, hh.2]
      have htail : substChars as = bs := by
        refine ih bs ⟨?_, hall.2⟩ hlet.2
        simpa using hlen
      show substCh a :: substChars as = b :: bs
      rw [hhead, htail]

/-- A nonempty list has a true negated-isEmpty flag. -/
theorem bnot_isEmpty_iff {α : Type} (l : List α) : (!l.isEmpty) = true ↔ l ≠ [] := by
  cases l <;> simp

/-! ## Claim C9 -/

/-- Claim C9: when the blacklist term set is empty, check returns
unflagged with an empty match list for every input string (fail open
by design). -/
theorem C9_empty_blacklist_never_flags (text : List Char) :
    check [] text = (false, []) := rfl

/-! ## Claim C7 -/

/-- Claim C7 (counterexample): the claim quantifies over every term
of the blacklist set, but a term that itself contains a glyph of the
substitution table is never matched: with the term sp4m in the set,
the input 5p4m is a leet variant of it (s replaced by 5, the 4 kept),
yet check leaves it unflagged, because the normalized text reads
spam and the raw term sp4m is compared against it. -/
theorem C7_cex_glyph_term_not_flagged :
    leetVariant ("5p4m".toList) ("sp4m".toList) = true
    ∧ ("sp4m".toList) ∈ [("sp4m".toList)]
    ∧ check [("sp4m".toList)] ("5p4m".toList) = (false, []) := by decide

/-- Claim C7 (amended): for every term t of the blacklist set that
consists of lowercase letters a-z, and every input obtained from t by
replacing letters with their leet-speak glyph equivalents under the
fixed substitution table, check flags that input and reports t among
the matches. -/
theorem C7_amended_letter_terms_flag_leet (words : List (List Char))
    (t x : List Char) (hmem : t ∈ words) (hlet : t.all isLowerAlpha = true)
    (hvar : leetVariant x t = true) :
    (check words x).1 = true ∧ t ∈ (check words x).2 := by
  have hx : substChars x = t := substChars_of_variant x t hvar hlet
  have hcoll : collapsedForm x = t := by
    unfold collapsedForm
    rw [hx]
    exact List.filter_eq_self.mpr (fun c hc => List.all_eq_true.mp hlet c hc)
  have hcont : containsSub t (normalize x) = true := by
    unfold normalize
    rw [hcoll]
    exact containsSub_self_append t _
  have hie : words.isEmpty = false :=
    List.isEmpty_eq_false.mpr (List.ne_nil_of_mem hmem)
  have hhit : altSearch (sortByLenDesc words) (normalize x) = true := by
    rw [altSearch_eq_any, any_eq_of_perm (sortByLenDesc_perm words)]
    exact List.any_eq_true.mpr ⟨t, hmem, hcont⟩
  have hcheck : check words x
      = (!(words.filter (fun w => containsSub w (normalize x))).isEmpty,
          words.filter (fun w => containsSub w (normalize x))) := by
    unfold check compilePattern
    rw [hie]
    simp only [Bool.false_eq_true, if_false, hhit, if_true]
  have hmemf : t ∈ words.filter (fun w => containsSub w (normalize x)) :=
    List.mem_filter.mpr ⟨hmem, hcont⟩
  rw [hcheck]
  exact ⟨(bnot_isEmpty_iff _).mpr (List.ne_nil_of_mem hmemf), hmemf⟩

/-- Claim C7 (witness): the blacklist holds the term spam and the
input 5p4m is flagged with spam among the matches. -/
theorem C7_amended_witness :
    (check [("spam".toList)] ("5p4m".toList)).1 = true
    ∧ ("spam".toList) ∈ (check [("spam".toList)] ("5p4m".toList)).2 :=
  C7_amended_letter_terms_flag_leet [("spam".toList)] ("spam".toList)
    ("5p4m".toList) (by decide) (by decide) (by decide)

/-! ## Claim C8 -/

/-- Claim C8 (counterexample): normalization is not idempotent on the
collapsed form.  The method returns the collapsed and the spaced form
joined into one string, so re-normalizing duplicates the letters: on
the input a, the first pass returns the two-form string whose
collapsed component is a, while normalizing that output yields the
collapsed component aa. -/
theorem C8_cex_normalize_not_idempotent :
    ¬ collapsedForm (normalize ("a".toList)) = collapsedForm ("a".toList) := by
  decide

/-- Claim C8 (amended): the collapsed form of a normalized string is
the collapsed form of the original string duplicated (each of the
two components of the joined return value contributes one copy of
the letters), and the collapsed-form extraction itself is
idempotent. -/
theorem C8_amended_collapsed_doubles (x : List Char) :
    collapsedForm (normalize x) = collapsedForm x ++ collapsedForm x
    ∧ collapsedForm (collapsedForm x) = collapsedForm x := by
  constructor
  · unfold normalize
    rw [collapsedForm_append, collapsedForm_idem, collapsedForm_cons_space,
      collapsedForm_spacedForm]
  · exact collapsedForm_idem x

/-! ## Claim C10 -/

/-- Claim C10: for a nonempty term set, the fast first pass - the
alternation of the escaped terms, longest first - hits the
normalized text exactly when some term of the set is contained in
it; consequently the two-pass check agrees with the single per-term
containment pass described by the spec, and the returned flag is
true exactly when the returned match list is nonempty. -/
theorem C10_two_pass_refines_containment (words : List (List Char))
    (text : List Char) (h : words ≠ []) :
    (altSearch (sortByLenDesc words) (normalize text) = true
      ↔ ∃ w ∈ words, containsSub w (normalize text) = true)
    ∧ check words text = checkSpec words text
    ∧ ((check words text).1 = true ↔ (check words text).2 ≠ []) := by
  have hie : words.isEmpty = false := List.isEmpty_eq_false.mpr h
  have hany : altSearch (sortByLenDesc words) (normalize text)
      = words.any (fun w => containsSub w (normalize text)) := by
    rw [altSearch_eq_any]
    exact any_eq_of_perm (sortByLenDesc_perm words) _
  have hcheck : check words text = checkSpec words text := by
    unfold check checkSpec compilePattern
    rw [hie]
    simp only [Bool.false_eq_true, if_false, hany]
    cases hb : words.any (fun w => containsSub w (normalize text)) with
    | true => simp only [if_true]
    | false =>
      have hfil : words.filter (fun w => containsSub w (normalize text)) = [] :=
        List.filter_eq_nil_iff.mpr (List.any_eq_false.mp hb)
      simp only [Bool.false_eq_true, if_false, hfil]
  refine ⟨?_, hcheck, ?_⟩
  · rw [hany, List.any_eq_true]
  · rw [hcheck]
    show (!(words.filter (fun w => containsSub w (normalize text))).isEmpty) = true
      ↔ words.filter (fun w => containsSub w (normalize text)) ≠ []
    exact bnot_isEmpty_iff _

/-- Claim C10 (witness): instantiated at the one-term set spam and
the input 5p4m. -/
theorem C10_witness :
    (altSearch (sortByLenDesc [("spam".toList)]) (normalize ("5p4m".toList)) = true
      ↔ ∃ w ∈ [("spam".toList)], containsSub w (normalize ("5p4m".toList)) = true)
    ∧ check [("spam".toList)] ("5p4m".toList) = checkSpec [("spam".toList)] ("5p4m".toList)
    ∧ ((check [("spam".toList)] ("5p4m".toList)).1 = true
      ↔ (check [("spam".toList)] ("5p4m".toList)).2 ≠ []) :=
  C10_two_pass_refines_containment [("spam".toList)] ("5p4m".toList) (by decide)

/-! ## Claim C5 -/

/-- Claim C5: a token issued for a participant id at time T validates
back to that same id whenever its age is strictly under 30 minutes -
in particular at T plus 29 minutes 59 seconds - and validation
returns the invalid outcome none when the age exceeds 30 minutes -
in particular at T plus 30 minutes 1 second. -/
theorem C5_token_validity_window (secret uid T d : Nat) :
    (d < 1800 →
      decode_verification_token secret (T + d)
        (create_verification_token secret uid T) = some uid)
    ∧ (1800 < d →
      decode_verification_token secret (T + d)
        (create_verification_token secret uid T) = none) := by
  constructor
  · intro h
    unfold decode_verification_token
    split_ifs with hc
    · rfl
    · exfalso
      apply hc
      refine ⟨rfl, ?_⟩
      show T + d - T ≤ TOKEN_MAX_AGE
      unfold TOKEN_MAX_AGE
      omega
  · intro h
    unfold decode_verification_token
    split_ifs with hc
    · exfalso
      have h2 : T + d - T ≤ 1800 := hc.2
      omega
    · rfl

/-- Claim C5 (witness): with secret 7 and user id 42, a token issued
at time 0 validates at 1799 seconds and is rejected at 1801
seconds. -/
theorem C5_witness :
    decode_verification_token 7 1799 (create_verification_token 7 42 0) = some 42
    ∧ decode_verification_token 7 1801 (create_verification_token 7 42 0) = none :=
  ⟨(C5_token_validity_window 7 42 0 1799).1 (by decide),
   (C5_token_validity_window 7 42 0 1801).2 (by decide)⟩

/-! ## Lemmas about the database helpers -/

/-- Ensuring a user row never touches the audit table. -/
theorem ensure_user_user_events (db : DB) (u : Nat) :
    (ensure_user db u).user_events = db.user_events := by
  unfold ensure_user
  split_ifs <;> rfl

/-- Finding the verified flag after the UPDATE of the completion
step: when some row carries the id, the updated table answers true
for it, and a row with the id is still present. -/
theorem find_setVerified (l : List UserRow) (uid : Nat)
    (hu : ∃ u ∈ l, u.discord_id = uid) :
    ((l.map (fun u =>
        if u.discord_id == uid then { u with is_verified := true } else u)).find?
      (fun u => u.discord_id == uid)).map (fun u => u.is_verified) = some true
    ∧ ∃ v ∈ l.map (fun u =>
        if u.discord_id == uid then { u with is_verified := true } else u),
        v.discord_id = uid := by
  induction l with
  | nil =>
    rcases hu with ⟨u, hmem, -⟩
    cases hmem
  | cons a t ih =>
    by_cases hid : a.discord_id = uid
    · have hbeq : (a.discord_id == uid) = true := beq_iff_eq.mpr hid
      constructor
      · rw [List.map_cons, if_pos hbeq, List.find?_cons_of_pos]
        · rfl
        · show ((⟨a.discord_id, true⟩ : UserRow).discord_id == uid) = true
          exact hbeq
      · refine ⟨⟨a.discord_id, true⟩, ?_, hid⟩
        rw [List.map_cons, if_pos hbeq]
        exact List.mem_cons_self _ _
    · have hbeq : (a.discord_id == uid) = false := beq_eq_false_iff_ne.mpr hid
      have hut : ∃ u ∈ t, u.discord_id = uid := by
        rcases hu with ⟨u, hmem, huid⟩
        rcases List.mem_cons.mp hmem with rfl | hmt
        · exact absurd huid hid
        · exact ⟨u, hmt, huid⟩
      rcases ih hut with ⟨ih1, ih2⟩
      constructor
      · rw [List.map_cons, if_neg (by rw [hbeq]; exact Bool.false_ne_true),
          List.find?_cons_of_neg]
        · exact ih1
        · rw [hbeq]
          exact Bool.false_ne_true
      · rcases ih2 with ⟨v, hv, hvid⟩
        refine ⟨v, ?_, hvid⟩
        rw [List.map_cons]
        exact List.mem_cons_of_mem _ hv

/-! ## Claim C1 -/

/-- Claim C1 (counterexample): the claim asks the rank precondition
to hold on every execution path including the automated-detection
confirmation surface, but the automod kick handler performs no rank
comparison: a moderator of rank 1 holding manage-messages kicks a
target of rank 5 - the DM and the kick platform effect are issued,
the action row is written, and the handler reports success. -/
theorem C1_cex_automod_kick_ignores_rank :
    (⟨1, false, 1, true⟩ : Member).topRole ≤ (⟨2, false, 5, false⟩ : Member).topRole
    ∧ (kick_button dbEmpty false ⟨1, false, 1, true⟩ ⟨2, false, 5, false⟩
        true true true).2.1 = [Effect.dm 2, Effect.kickUser 2]
    ∧ (kick_button dbEmpty false ⟨1, false, 1, true⟩ ⟨2, false, 5, false⟩
        true true true).1.mod_actions = [⟨2, 1, "kick", none⟩]
    ∧ (kick_button dbEmpty false ⟨1, false, 1, true⟩ ⟨2, false, 5, false⟩
        true true true).2.2.1 = CmdResult.done := by decide

/-- Claim C1 (amended): on the explicit slash-command surface the
precondition holds as claimed: for kick, ban and timeout, an acting
moderator whose rank is less than or equal to the target's is
rejected with no platform-side effect and no database write.  The
automated-detection confirmation surface instead checks only the
manage-messages capability - an actor without it is rejected with no
effect and no write - and performs no rank comparison (see the
counterexample). -/
theorem C1_amended_slash_rank_precondition (db : DB) (actor target : Member)
    (minutes : Nat) (dmOk opOk tf : Bool) (sd : Bool)
    (hrank : actor.topRole ≤ target.topRole) :
    ((kickCmd db actor target dmOk opOk).1 = db
      ∧ (kickCmd db actor target dmOk opOk).2.1 = []
      ∧ (kickCmd db actor target dmOk opOk).2.2.isRejection = true)
    ∧ ((banCmd db actor target dmOk opOk).1 = db
      ∧ (banCmd db actor target dmOk opOk).2.1 = []
      ∧ (banCmd db actor target dmOk opOk).2.2.isRejection = true)
    ∧ ((timeoutCmd db actor target minutes dmOk opOk).1 = db
      ∧ (timeoutCmd db actor target minutes dmOk opOk).2.1 = []
      ∧ (timeoutCmd db actor target minutes dmOk opOk).2.2.isRejection = true)
    ∧ (actor.manageMessages = false →
        kick_button db sd actor target tf dmOk opOk
          = (db, [], CmdResult.rejected ("You do not have permission to do this."), sd)) := by
  refine ⟨?_, ?_, ?_, ?_⟩
  · unfold kickCmd
    cases hb : target.isBot with
    | true => exact ⟨rfl, rfl, rfl⟩
    | false =>
      rw [if_neg Bool.false_ne_true, if_pos hrank]
      exact ⟨rfl, rfl, rfl⟩
  · unfold banCmd
    cases hb : target.isBot with
    | true => exact ⟨rfl, rfl, rfl⟩
    | false =>
      rw [if_neg Bool.false_ne_true, if_pos hrank]
      exact ⟨rfl, rfl, rfl⟩
  · unfold timeoutCmd
    cases hb : target.isBot with
    | true => exact ⟨rfl, rfl, rfl⟩
    | false =>
      rw [if_neg Bool.false_ne_true, if_pos hrank]
      exact ⟨rfl, rfl, rfl⟩
  · intro hmm
    unfold kick_button
    rw [if_pos (by rw [hmm]; rfl)]

/-- Claim C1 (witness): an actor and a target of equal rank 2; all
three slash commands reject with no effect and no write, and the
automod button rejects an actor without manage-messages. -/
theorem C1_amended_witness :
    ((kickCmd dbEmpty ⟨1, false, 2, false⟩ ⟨2, false, 2, false⟩ true true).1 = dbEmpty
      ∧ (kickCmd dbEmpty ⟨1, false, 2, false⟩ ⟨2, false, 2, false⟩ true true).2.1 = []
      ∧ (kickCmd dbEmpty ⟨1, false, 2, false⟩ ⟨2, false, 2, false⟩ true true).2.2.isRejection = true)
    ∧ ((banCmd dbEmpty ⟨1, false, 2, false⟩ ⟨2, false, 2, false⟩ true true).1 = dbEmpty
      ∧ (banCmd dbEmpty ⟨1, false, 2, false⟩ ⟨2, false, 2, false⟩ true true).2.1 = []
      ∧ (banCmd dbEmpty ⟨1, false, 2, false⟩ ⟨2, false, 2, false⟩ true true).2.2.isRejection = true)
    ∧ ((timeoutCmd dbEmpty ⟨1, false, 2, false⟩ ⟨2, false, 2, false⟩ 5 true true).1 = dbEmpty
      ∧ (timeoutCmd dbEmpty ⟨1, false, 2, false⟩ ⟨2, false, 2, false⟩ 5 true true).2.1 = []
      ∧ (timeoutCmd dbEmpty ⟨1, false, 2, false⟩ ⟨2, false, 2, false⟩ 5 true true).2.2.isRejection = true)
    ∧ ((⟨1, false, 2, false⟩ : Member).manageMessages = false →
        kick_button dbEmpty false ⟨1, false, 2, false⟩ ⟨2, false, 2, false⟩ true true true
          = (dbEmpty, [], CmdResult.rejected ("You do not have permission to do this."), false)) :=
  C1_amended_slash_rank_precondition dbEmpty ⟨1, false, 2, false⟩ ⟨2, false, 2, false⟩
    5 true true true false (by decide)

/-! ## Claim C2 -/

/-- Claim C2 (counterexample): two clicks dispatched concurrently -
both delivered while the stored surface is still enabled, before
either handler has edited the message - each run their moderation
action: this schedule drives the execution count of one surface to
2, though the claim allows at most one execution ever. -/
theorem C2_cex_concurrent_double_execution :
    (runClicks ⟨false, 0, [ClickPhase.pending, ClickPhase.pending]⟩
      [ClickAct.click 0, ClickAct.click 1, ClickAct.exec 0, ClickAct.exec 1,
        ClickAct.disable 0, ClickAct.disable 1]).executions = 2 := by decide

/-- A resolved surface - disabled, with no handler between dispatch
and its final edit - absorbs every further action. -/
theorem stepClick_resolved (s : SurfaceState) (hd : s.disabled = true)
    (h : ∀ p ∈ s.tasks, p ≠ ClickPhase.running ∧ p ≠ ClickPhase.executed)
    (a : ClickAct) : stepClick s a = s := by
  cases a with
  | click i =>
    simp only [stepClick]
    rw [if_neg]
    rintro ⟨h1, -⟩
    rw [hd] at h1
    cases h1
  | exec i =>
    simp only [stepClick]
    rw [if_neg]
    intro h1
    exact (h _ (List.get?_mem h1)).1 rfl
  | disable i =>
    simp only [stepClick]
    rw [if_neg]
    intro h1
    exact (h _ (List.get?_mem h1)).2 rfl

/-- A resolved surface stays unchanged under any schedule. -/
theorem runClicks_resolved (s : SurfaceState) (hd : s.disabled = true)
    (h : ∀ p ∈ s.tasks, p ≠ ClickPhase.running ∧ p ≠ ClickPhase.executed)
    (acts : List ClickAct) : runClicks s acts = s := by
  induction acts with
  | nil => rfl
  | cons a rest ih =>
    show runClicks (stepClick s a) rest = s
    rw [stepClick_resolved s hd h a]
    exact ih

/-- Claim C2 (amended): the one-shot property holds exactly when the
first click's handler completes - the action and then the disabling
edit - before any further click is dispatched: from an armed
surface, one completed click yields exactly one execution and a
disabled surface, and every schedule of further actions (including
clicks, which the platform no longer delivers on a disabled surface)
then leaves the surface unchanged.  Clicks dispatched concurrently,
before the disabling edit lands, are not blocked by anything in the
handler, and each of them executes - see the counterexample. -/
theorem C2_amended_one_shot_when_serialized (ts : List ClickPhase)
    (hts : ∀ p ∈ ts, p = ClickPhase.pending) (acts : List ClickAct) :
    (runClicks ⟨false, 0, ClickPhase.pending :: ts⟩
        [ClickAct.click 0, ClickAct.exec 0, ClickAct.disable 0]).executions = 1
    ∧ (runClicks ⟨false, 0, ClickPhase.pending :: ts⟩
        [ClickAct.click 0, ClickAct.exec 0, ClickAct.disable 0]).disabled = true
    ∧ runClicks (runClicks ⟨false, 0, ClickPhase.pending :: ts⟩
          [ClickAct.click 0, ClickAct.exec 0, ClickAct.disable 0]) acts
        = runClicks ⟨false, 0, ClickPhase.pending :: ts⟩
            [ClickAct.click 0, ClickAct.exec 0, ClickAct.disable 0] := by
  have hrun : runClicks ⟨false, 0, ClickPhase.pending :: ts⟩
      [ClickAct.click 0, ClickAct.exec 0, ClickAct.disable 0]
      = ⟨true, 1, ClickPhase.finished :: ts⟩ := rfl
  rw [hrun]
  refine ⟨rfl, rfl, ?_⟩
  refine runClicks_resolved _ rfl (fun p hp => ?_) acts
  rcases List.mem_cons.mp hp with rfl | hpt
  · exact ⟨(fun hc => by cases hc), (fun hc => by cases hc)⟩
  · rw [hts p hpt]
    exact ⟨(fun hc => by cases hc), (fun hc => by cases hc)⟩

/-- Claim C2 (witness): a surface armed with four potential clicks;
after the first completed click, a schedule that clicks and runs a
second handler changes nothing. -/
theorem C2_amended_witness :
    (runClicks ⟨false, 0, ClickPhase.pending :: [ClickPhase.pending, ClickPhase.pending, ClickPhase.pending]⟩
        [ClickAct.click 0, ClickAct.exec 0, ClickAct.disable 0]).executions = 1
    ∧ (runClicks ⟨false, 0, ClickPhase.pending :: [ClickPhase.pending, ClickPhase.pending, ClickPhase.pending]⟩
        [ClickAct.click 0, ClickAct.exec 0, ClickAct.disable 0]).disabled = true
    ∧ runClicks (runClicks ⟨false, 0, ClickPhase.pending :: [ClickPhase.pending, ClickPhase.pending, ClickPhase.pending]⟩
          [ClickAct.click 0, ClickAct.exec 0, ClickAct.disable 0])
        [ClickAct.click 1, ClickAct.exec 1]
        = runClicks ⟨false, 0, ClickPhase.pending :: [ClickPhase.pending, ClickPhase.pending, ClickPhase.pending]⟩
            [ClickAct.click 0, ClickAct.exec 0, ClickAct.disable 0] :=
  C2_amended_one_shot_when_serialized
    [ClickPhase.pending, ClickPhase.pending, ClickPhase.pending]
    (by decide) [ClickAct.click 1, ClickAct.exec 1]

/-! ## Claim C3 -/

/-- Claim C3 (counterexample): the staff-activity audit facet is not
part of the action's transaction.  With the second session failing,
the warn of user 2 by moderator 1 leaves the action row and the
target-facet audit row visible while no staff-activity row exists,
and the command reports an error: after a single failure, neither
all of the rows are visible nor none. -/
theorem C3_cex_staff_audit_separate_transaction :
    (warnCmd dbEmpty ⟨1, false, 5, true⟩ ⟨2, false, 1, false⟩ true false true).1.mod_actions
        = [⟨2, 1, "warn", none⟩]
    ∧ (warnCmd dbEmpty ⟨1, false, 5, true⟩ ⟨2, false, 1, false⟩ true false true).1.warnings
        = [⟨2, 1⟩]
    ∧ (warnCmd dbEmpty ⟨1, false, 5, true⟩ ⟨2, false, 1, false⟩ true false true).1.user_events
        = [⟨2, "warned"⟩]
    ∧ (warnCmd dbEmpty ⟨1, false, 5, true⟩ ⟨2, false, 1, false⟩ true false true).2.2
        = WarnOutcome.errored := by decide

/-- Claim C3 (amended): the ModerationAction row, the Warning row and
the action-describing AuditEvent are written in one transaction -
on a failure there, nothing is visible - but the staff-activity
AuditEvent attributing the action to the actor is written in a
second, separate transaction: when that one fails, the first three
rows stay visible without it. -/
theorem C3_amended_txn_boundaries (db : DB) (actor target : Member)
    (dmOk : Bool) (hbot : target.isBot = false) :
    (∀ t2, (warnCmd db actor target false t2 dmOk).1 = db)
    ∧ (warnCmd db actor target true false dmOk).1.mod_actions
        = (ensure_user db target.id).mod_actions ++ [⟨target.id, actor.id, "warn", none⟩]
    ∧ (warnCmd db actor target true false dmOk).1.warnings
        = (ensure_user db target.id).warnings ++ [⟨target.id, actor.id⟩]
    ∧ (warnCmd db actor target true false dmOk).1.user_events
        = (ensure_user db target.id).user_events ++ [⟨target.id, "warned"⟩]
    ∧ (warnCmd db actor target true true dmOk).1.user_events
        = (ensure_user db target.id).user_events
            ++ [⟨target.id, "warned"⟩, ⟨actor.id, "mod_action_performed"⟩] := by
  have hnb : ¬ target.isBot = true := by
    rw [hbot]
    exact Bool.false_ne_true
  refine ⟨fun t2 => ?_, ?_, ?_, ?_, ?_⟩
  · unfold warnCmd
    rw [if_neg hnb]
    rfl
  · unfold warnCmd
    rw [if_neg hnb]
    rfl
  · unfold warnCmd
    rw [if_neg hnb]
    rfl
  · unfold warnCmd
    rw [if_neg hnb]
    rfl
  · unfold warnCmd
    rw [if_neg hnb]
    show (ensure_user { ensure_user db target.id with
        warnings := (ensure_user db target.id).warnings ++ [⟨target.id, actor.id⟩],
        mod_actions := (ensure_user db target.id).mod_actions
          ++ [⟨target.id, actor.id, "warn", none⟩],
        user_events := (ensure_user db target.id).user_events
          ++ [⟨target.id, "warned"⟩] } actor.id).user_events
        ++ [⟨actor.id, "mod_action_performed"⟩]
      = (ensure_user db target.id).user_events
          ++ [⟨target.id, "warned"⟩, ⟨actor.id, "mod_action_performed"⟩]
    rw [ensure_user_user_events]
    show ((ensure_user db target.id).user_events ++ [⟨target.id, "warned"⟩])
        ++ [⟨actor.id, "mod_action_performed"⟩] = _
    rw [List.append_assoc]
    rfl

/-- Claim C3 (witness): instantiated with moderator 1 warning user 2
over the empty database. -/
theorem C3_amended_witness :
    (∀ t2, (warnCmd dbEmpty ⟨1, false, 5, true⟩ ⟨2, false, 1, false⟩ false t2 true).1 = dbEmpty)
    ∧ (warnCmd dbEmpty ⟨1, false, 5, true⟩ ⟨2, false, 1, false⟩ true false true).1.mod_actions
        = (ensure_user dbEmpty 2).mod_actions ++ [⟨2, 1, "warn", none⟩]
    ∧ (warnCmd dbEmpty ⟨1, false, 5, true⟩ ⟨2, false, 1, false⟩ true false true).1.warnings
        = (ensure_user dbEmpty 2).warnings ++ [⟨2, 1⟩]
    ∧ (warnCmd dbEmpty ⟨1, false, 5, true⟩ ⟨2, false, 1, false⟩ true false true).1.user_events
        = (ensure_user dbEmpty 2).user_events ++ [⟨2, "warned"⟩]
    ∧ (warnCmd dbEmpty ⟨1, false, 5, true⟩ ⟨2, false, 1, false⟩ true true true).1.user_events
        = (ensure_user dbEmpty 2).user_events
            ++ [⟨2, "warned"⟩, ⟨1, "mod_action_performed"⟩] :=
  C3_amended_txn_boundaries dbEmpty ⟨1, false, 5, true⟩ ⟨2, false, 1, false⟩ true (by decide)

/-! ## Claim C4 -/

/-- Claim C4 (code_bug): the unban path writes its ModAction row with
no ensure-user call for the target, and the member-remove listener
writes the leave AuditEvent with no existence check either, so both
paths break the existence-before-write invariant the claim states
and the foreign keys of the schema declare: the empty database
satisfies referential integrity, one unban of the unseen id 99
leaves an action row referencing 99 with no users row for it, and
one leave of the unseen member 42 does the same for the audit
table. -/
theorem C4_unban_and_leave_write_orphan_rows :
    refIntegrity dbEmpty = true
    ∧ refIntegrity (unbanCmd dbEmpty ⟨1, false, 5, true⟩ 99 true true).1 = false
    ∧ (unbanCmd dbEmpty ⟨1, false, 5, true⟩ 99 true true).1.mod_actions
        = [⟨99, 1, "unban", none⟩]
    ∧ (unbanCmd dbEmpty ⟨1, false, 5, true⟩ 99 true true).1.users.all
        (fun u => !(u.discord_id == 99)) = true
    ∧ refIntegrity (on_member_remove dbEmpty ⟨42, false, 0, false⟩) = false := by
  decide

/-! ## Claim C6 -/

/-- With a committed session, every follow-up branch of the
completion step returns the updated database. -/
theorem complete_verification_db (db : DB) (uid : Nat)
    (l a : Bool) (dm : DmOutcome) :
    (complete_verification db uid true l a dm).1
      = { db with
          users := db.users.map (fun u =>
            if u.discord_id == uid then { u with is_verified := true } else u),
          user_events := db.user_events ++ [⟨uid, "verified"⟩] } := by
  unfold complete_verification
  cases l <;> cases a <;> cases dm <;> rfl

/-- With a committed session, the completion step raises exactly
when a post-commit follow-up does. -/
theorem complete_verification_raised (db : DB) (uid : Nat)
    (l a : Bool) (dm : DmOutcome) :
    (complete_verification db uid true l a dm).2.2 = followupRaises l a dm := by
  unfold complete_verification followupRaises
  cases l <;> cases a <;> cases dm <;> rfl

/-- Shape of a submit whose token decodes, whose captcha response is
present and whose external check succeeds. -/
theorem handle_submit_eq (db : DB) (secret now uid : Nat) (t : Token)
    (resp : String) (l a : Bool) (dm : DmOutcome)
    (h : decode_verification_token secret now t = some uid) :
    handle_captcha_submit db secret now t (some resp) true true l a dm
      = ((complete_verification db uid true l a dm).1,
         (complete_verification db uid true l a dm).2.1,
         if (complete_verification db uid true l a dm).2.2
           then SubmitOutcome.errorPage ("An error occurred. Please try again later.")
           else SubmitOutcome.successPage) := by
  unfold handle_captcha_submit
  rw [h]
  rfl

/-- Claim C6 (counterexample): the success outcome is not guaranteed
by a valid token and a successful external check.  User 5 submits
the valid token with a clean platform and gets the success page; the
second submit of the same still-valid token hits a failing role
grant, whose exception escapes the completion step after the session
committed, so the handler renders the error page - not the success
outcome the claim requires - while the verified flag is already
true. -/
theorem C6_cex_followup_failure_reports_error :
    (handle_captcha_submit ⟨[⟨5, false⟩], [], [], []⟩ 3 10
        (create_verification_token 3 5 0) (some "r")
        true true true true DmOutcome.delivered).2.2 = SubmitOutcome.successPage
    ∧ (handle_captcha_submit
        (handle_captcha_submit ⟨[⟨5, false⟩], [], [], []⟩ 3 10
          (create_verification_token 3 5 0) (some "r")
          true true true true DmOutcome.delivered).1
        3 20 (create_verification_token 3 5 0) (some "r")
        true true true false DmOutcome.delivered).2.2
      = SubmitOutcome.errorPage ("An error occurred. Please try again later.")
    ∧ getVerified (handle_captcha_submit
        (handle_captcha_submit ⟨[⟨5, false⟩], [], [], []⟩ 3 10
          (create_verification_token 3 5 0) (some "r")
          true true true true DmOutcome.delivered).1
        3 20 (create_verification_token 3 5 0) (some "r")
        true true true false DmOutcome.delivered).1 5 = some true := by decide

/-- Claim C6 (amended): a submit with a valid token, a successful
external check and a committed session durably sets the
participant's verified flag to true - even when a post-commit
follow-up fails - and renders the success page exactly when no
post-commit follow-up raises (the role grant and a non-Forbidden DM
failure being the raising ones); a second submit with the same
still-valid token behaves identically and leaves the flag unchanged
at true, so when the follow-ups of both submits stay clean, both
report success. -/
theorem C6_amended_commit_despite_followup (db : DB)
    (secret now1 now2 uid : Nat) (t : Token) (resp : String)
    (l1 a1 l2 a2 : Bool) (dm1 dm2 : DmOutcome)
    (hu : ∃ u ∈ db.users, u.discord_id = uid)
    (h1 : decode_verification_token secret now1 t = some uid)
    (h2 : decode_verification_token secret now2 t = some uid) :
    getVerified
        (handle_captcha_submit db secret now1 t (some resp) true true l1 a1 dm1).1 uid
      = some true
    ∧ ((handle_captcha_submit db secret now1 t (some resp) true true l1 a1 dm1).2.2
        = SubmitOutcome.successPage ↔ followupRaises l1 a1 dm1 = false)
    ∧ getVerified (handle_captcha_submit
        (handle_captcha_submit db secret now1 t (some resp) true true l1 a1 dm1).1
        secret now2 t (some resp) true true l2 a2 dm2).1 uid = some true
    ∧ ((handle_captcha_submit
        (handle_captcha_submit db secret now1 t (some resp) true true l1 a1 dm1).1
        secret now2 t (some resp) true true l2 a2 dm2).2.2
        = SubmitOutcome.successPage ↔ followupRaises l2 a2 dm2 = false) := by
  have hv1 := find_setVerified db.users uid hu
  have hpage : ∀ (l a : Bool) (dm : DmOutcome),
      ((if followupRaises l a dm
          then SubmitOutcome.errorPage ("An error occurred. Please try again later.")
          else SubmitOutcome.successPage) = SubmitOutcome.successPage
        ↔ followupRaises l a dm = false) := by
    intro l a dm
    cases hf : followupRaises l a dm <;> simp
  refine ⟨?_, ?_, ?_, ?_⟩
  · rw [handle_submit_eq db secret now1 uid t resp l1 a1 dm1 h1,
      complete_verification_db]
    exact hv1.1
  · rw [handle_submit_eq db secret now1 uid t resp l1 a1 dm1 h1]
    show (if (complete_verification db uid true l1 a1 dm1).2.2
        then SubmitOutcome.errorPage ("An error occurred. Please try again later.")
        else SubmitOutcome.successPage) = SubmitOutcome.successPage
      ↔ followupRaises l1 a1 dm1 = false
    rw [complete_verification_raised]
    exact hpage l1 a1 dm1
  · rw [handle_submit_eq db secret now1 uid t resp l1 a1 dm1 h1,
      complete_verification_db]
    have hv2 := find_setVerified _ uid hv1.2
    rw [handle_submit_eq _ secret now2 uid t resp l2 a2 dm2 h2,
      complete_verification_db]
    exact hv2.1
  · rw [handle_submit_eq db secret now1 uid t resp l1 a1 dm1 h1,
      complete_verification_db,
      handle_submit_eq _ secret now2 uid t resp l2 a2 dm2 h2]
    show (if (complete_verification _ uid true l2 a2 dm2).2.2
        then SubmitOutcome.errorPage ("An error occurred. Please try again later.")
        else SubmitOutcome.successPage) = SubmitOutcome.successPage
      ↔ followupRaises l2 a2 dm2 = false
    rw [complete_verification_raised]
    exact hpage l2 a2 dm2

/-- Claim C6 (witness): user 5 exists unverified; with secret 3, a
token issued at time 0 and clean follow-ups, the submit at time 10
and the re-submit at time 20 both render the success page and leave
the flag true. -/
theorem C6_amended_witness :
    getVerified (handle_captcha_submit ⟨[⟨5, false⟩], [], [], []⟩ 3 10
        (create_verification_token 3 5 0) (some "r")
        true true true true DmOutcome.delivered).1 5 = some true
    ∧ ((handle_captcha_submit ⟨[⟨5, false⟩], [], [], []⟩ 3 10
        (create_verification_token 3 5 0) (some "r")
        true true true true DmOutcome.delivered).2.2 = SubmitOutcome.successPage
      ↔ followupRaises true true DmOutcome.delivered = false)
    ∧ getVerified (handle_captcha_submit
        (handle_captcha_submit ⟨[⟨5, false⟩], [], [], []⟩ 3 10
          (create_verification_token 3 5 0) (some "r")
          true true true true DmOutcome.delivered).1
        3 20 (create_verification_token 3 5 0) (some "r")
        true true true true DmOutcome.delivered).1 5 = some true
    ∧ ((handle_captcha_submit
        (handle_captcha_submit ⟨[⟨5, false⟩], [], [], []⟩ 3 10
          (create_verification_token 3 5 0) (some "r")
          true true true true DmOutcome.delivered).1
        3 20 (create_verification_token 3 5 0) (some "r")
        true true true true DmOutcome.delivered).2.2 = SubmitOutcome.successPage
      ↔ followupRaises true true DmOutcome.delivered = false) :=
  C6_amended_commit_despite_followup ⟨[⟨5, false⟩], [], [], []⟩ 3 10 20 5
    (create_verification_token 3 5 0) "r" true true true true
    DmOutcome.delivered DmOutcome.delivered
    ⟨⟨5, false⟩, List.mem_cons_self _ _, rfl⟩ (by decide) (by decide)

end EEBot
